import Mathlib

/-!
Verification of the request-pipeline state machine of the HTTP/3 benchmark
client (`src/client/src/main.rs`).  The client drives a single QUIC/HTTP-3
connection, issues `warmup + requests` GET requests strictly one at a time,
interprets the session event stream (Headers / Data / Finished / Reset /
GoAway / PriorityUpdate) into per-request timing records, and prints one CSV
row per measured completed request.

The embedding below is a shallow one: timestamps (`Instant`) become natural
numbers, durations become natural numbers with truncated subtraction (Rust's
`Instant::duration_since` saturates at zero), header names and values become
byte lists, and the mutable loop state of `main` becomes the `ClientState`
record transformed by pure step functions.
-/

namespace QlogBench

/-! ### Header value parsing (the `:status` pseudo-header)

The Rust code computes
`std::str::from_utf8(hdr.value()).unwrap_or("0").parse::<u16>().unwrap_or(0)`.
Rust's `u16::from_str` accepts an optional leading ASCII `+` followed by one
or more ASCII digits, with the value bounded by `65535`; every byte sequence
accepted by it is ASCII and hence valid UTF-8, and every invalid-UTF-8 byte
sequence is replaced by `"0"` which parses to `0`.  The composite function on
the raw value bytes is therefore `(parseU16Bytes bs).getD 0`. -/

/-- An ASCII decimal digit byte (`b'0'` to `b'9'`). -/
def isDigitByte (b : Nat) : Bool :=
  48 ≤ b && b ≤ 57

/-- Numeric value of a list of ASCII digit bytes, most significant first. -/
def digitsVal (bs : List Nat) : Nat :=
  bs.foldl (fun acc b => acc * 10 + (b - 48)) 0

/-- Rust `u16::from_str` on the raw bytes: optional leading `+`, then one or
more ASCII digits, value at most `65535`; `none` on any failure. -/
def parseU16Bytes (bs : List Nat) : Option Nat :=
  let ds := if bs.head? = some 43 then bs.tail else bs
  if !ds.isEmpty && ds.all isDigitByte && decide (digitsVal ds ≤ 65535) then
    some (digitsVal ds)
  else
    none

/-- Composite of `from_utf8(value).unwrap_or("0").parse::<u16>().unwrap_or(0)`
on the raw value bytes. -/
def statusFromBytes (bs : List Nat) : Nat :=
  (parseU16Bytes bs).getD 0

/-- The byte string `":status"`. -/
def statusName : List Nat :=
  [58, 115, 116, 97, 116, 117, 115]

/-- The `for hdr in &list` loop of the Headers arm: every header named
`:status` overwrites the status field with its parsed value. -/
def applyHeaders (list : List (List Nat × List Nat)) (status0 : Nat) : Nat :=
  list.foldl (fun acc hdr => if hdr.1 = statusName then statusFromBytes hdr.2 else acc) status0

/-! ### Data model -/

/-- The run configuration: the warmup count (`-w`) and the measured request
count (`-n`). -/
structure RunConfig where
  warmup : Nat
  requests : Nat
deriving DecidableEq, Repr

/-- `total_requests = args.warmup + args.requests`. -/
def RunConfig.total (cfg : RunConfig) : Nat :=
  cfg.warmup + cfg.requests

/-- One completed, measured request (struct `RequestResult`).  Durations are
naturals (nanoseconds, say); the CSV printer renders them in milliseconds. -/
structure RequestResult where
  index : Nat
  status : Nat
  ttfb : Nat
  total_time : Nat
  bytes_received : Nat
deriving DecidableEq, Repr

/-- The single outstanding request (struct `InflightRequest`). -/
structure InflightRequest where
  start : Nat
  first_byte : Option Nat
  status : Nat
  bytes_received : Nat
  stream_id : Nat
deriving DecidableEq, Repr

/-- The mutable state of `main`'s event loop that the request pipeline
touches: the issued and completed counters, the collected results, the
optional inflight request, and whether `conn.close` has been requested. -/
structure ClientState where
  requests_sent : Nat
  requests_done : Nat
  results : List RequestResult
  inflight : Option InflightRequest
  close_requested : Bool
deriving DecidableEq, Repr

/-- State at entry of the loop: counters zero, no results, nothing inflight. -/
def initState : ClientState :=
  { requests_sent := 0
    requests_done := 0
    results := []
    inflight := none
    close_requested := false }

/-- The HTTP/3 session events `h3.poll` can deliver, as matched by the event
loop.  A `data` event carries the byte counts returned by the successive
successful `recv_body` calls of the drain loop. -/
inductive H3Event where
  | headers (stream_id : Nat) (list : List (List Nat × List Nat))
  | data (stream_id : Nat) (chunks : List Nat)
  | finished (stream_id : Nat)
  | reset (stream_id : Nat)
  | goAway
  | priorityUpdate
deriving DecidableEq, Repr

/-- The `if requests_done >= total_requests { conn.close(true, 0x100, b"done").ok(); }`
check that follows the Finished and Reset arms. -/
def requestClose (cfg : RunConfig) (st : ClientState) : ClientState :=
  if cfg.total ≤ st.requests_done then
    { st with close_requested := true }
  else
    st

/-- One iteration of the `h3.poll` match: the effect of a single session
event on the pipeline state, with `now` the value `Instant::now()` would
return while this event is processed. -/
def processEvent (cfg : RunConfig) (now : Nat) (st : ClientState) : H3Event → ClientState
  | .headers sid list =>
      match st.inflight with
      | some req =>
          if sid = req.stream_id then
            { st with
                inflight := some { req with
                  first_byte := some now
                  status := applyHeaders list req.status } }
          else st
      | none => st
  | .data sid chunks =>
      match st.inflight with
      | some req =>
          if sid = req.stream_id then
            { st with
                inflight := some { req with
                  bytes_received := req.bytes_received + chunks.foldl (· + ·) 0 } }
          else st
      | none => st
  | .finished sid =>
      let st1 :=
        match st.inflight with
        | some req =>
            if sid = req.stream_id then
              let results1 :=
                if cfg.warmup ≤ st.requests_done then
                  st.results ++
                    [{ index := st.requests_done - cfg.warmup
                       status := req.status
                       ttfb := (req.first_byte.getD now) - req.start
                       total_time := now - req.start
                       bytes_received := req.bytes_received }]
                else st.results
              { st with
                  inflight := none
                  results := results1
                  requests_done := st.requests_done + 1 }
            else
              { st with inflight := none }
        | none => st
      requestClose cfg st1
  | .reset _sid =>
      requestClose cfg
        { st with inflight := none, requests_done := st.requests_done + 1 }
  | .goAway =>
      { st with close_requested := true }
  | .priorityUpdate => st

/-- The "send next request if nothing in-flight and requests remaining"
block, with `sid` the stream id `send_request` returns and `now` the issue
timestamp. -/
def maybeIssue (cfg : RunConfig) (now sid : Nat) (st : ClientState) : ClientState :=
  if st.inflight = none ∧ st.requests_sent < cfg.total then
    { st with
        inflight := some
          { start := now
            first_byte := none
            status := 0
            bytes_received := 0
            stream_id := sid }
        requests_sent := st.requests_sent + 1 }
  else st

/-- The same issue block with the fallibility of `h3.send_request` made
explicit: `res` is what `send_request` returns when (and only when) the guard
holds.  An error propagates out of `main` via
`.context("send_request failed")?`. -/
def issueNext (cfg : RunConfig) (now : Nat) (res : Except String Nat)
    (st : ClientState) : Except String ClientState :=
  if st.inflight = none ∧ st.requests_sent < cfg.total then
    match res with
    | .error m => .error ("send_request failed: " ++ m)
    | .ok sid =>
        .ok { st with
                inflight := some
                  { start := now
                    first_byte := none
                    status := 0
                    bytes_received := 0
                    stream_id := sid }
                requests_sent := st.requests_sent + 1 }
  else .ok st

/-- The pipeline-relevant occurrences of one run, in program order: either the
issue block runs (and issues a request exactly when its guard holds), or one
session event is processed. -/
inductive Action where
  | issue (now sid : Nat)
  | event (now : Nat) (ev : H3Event)
deriving DecidableEq, Repr

/-- Effect of one action on the pipeline state. -/
def step (cfg : RunConfig) (st : ClientState) : Action → ClientState
  | .issue now sid => maybeIssue cfg now sid st
  | .event now ev => processEvent cfg now st ev

/-- A whole run: fold the actions over the state. -/
def run (cfg : RunConfig) (st : ClientState) (acts : List Action) : ClientState :=
  acts.foldl (step cfg) st

/-- Timestamp carried by an action. -/
def actTime : Action → Nat
  | .issue now _ => now
  | .event now _ => now

/-- The actions occur at non-decreasing timestamps, all at least `w` (the
real loop reads a monotone clock). -/
def chronoFrom (w : Nat) : List Action → Bool
  | [] => true
  | a :: rest => decide (w ≤ actTime a) && chronoFrom (actTime a) rest

/-- Modelled from the spec: this action is a "Finished (not Reset) request
whose completed-count at finish time was ≥ warmup count" — the spec's
characterisation of the steps that produce a CSV row, to be compared with
the rows the code actually collects. -/
def specEmitsRow (cfg : RunConfig) (st : ClientState) : Action → Bool
  | .event _ (.finished sid) =>
      match st.inflight with
      | some req => decide (sid = req.stream_id) && decide (cfg.warmup ≤ st.requests_done)
      | none => false
  | _ => false

/-- Modelled from the spec: the number of row-producing finishes along a
trace, per the spec's counting rule. -/
def specRowCount (cfg : RunConfig) : ClientState → List Action → Nat
  | _, [] => 0
  | st, a :: rest =>
      (if specEmitsRow cfg st a then 1 else 0) + specRowCount cfg (step cfg st a) rest

/-- Every Reset event of the trace is processed while the completed-count is
still below the warmup count. -/
def noPostWarmupReset (cfg : RunConfig) : ClientState → List Action → Bool
  | _, [] => true
  | st, a :: rest =>
      (match a with
       | .event _ (.reset _) => decide (st.requests_done < cfg.warmup)
       | _ => true)
      && noPostWarmupReset cfg (step cfg st a) rest

/-! ### The outgoing flush loop and `send_to` -/

/-- Outcome of one `socket.send_to` attempt. -/
inductive SendOutcome where
  | accepted
  | wouldBlock
  | fatal (msg : String)
deriving DecidableEq, Repr

/-- The `send_to` helper: retry on `WouldBlock`, return on the first accepted
send, bail on a real error.  The argument lists the successive outcomes the
channel produces; `none` means every listed outcome was `WouldBlock`, i.e.
the tight retry loop is still spinning after consuming them all. -/
def send_to : List SendOutcome → Option (Except String Unit)
  | [] => none
  | .accepted :: _ => some (.ok ())
  | .wouldBlock :: rest => send_to rest
  | .fatal m :: _ => some (.error ("send_to failed: " ++ m))

/-- Behaviour of one `conn.send` call in the flush loop: either a packet to
transmit (paired with the channel outcomes its `send_to` will see), the
`Done` sentinel, or a fatal engine error. -/
inductive SendCall where
  | packet (bytes : List Nat) (ch : List SendOutcome)
  | done
  | fail (msg : String)
deriving DecidableEq, Repr

/-- The "send outgoing QUIC packets" loop.  Returns the packets put on the
wire on normal exit, or the fatal error; the `Bool` records whether the
best-effort `conn.close(false, 0x1, b"fail")` was attempted (only on the
engine-error path).  `none` means the supplied `conn.send` behaviours ran
out before the loop exited (or a `send_to` never stopped spinning). -/
def flushLoop (acc : List (List Nat)) :
    List SendCall → Option (Except String (List (List Nat)) × Bool)
  | [] => none
  | .done :: _ => some (.ok acc, false)
  | .fail m :: _ => some (.error ("send failed: " ++ m), true)
  | .packet d ch :: rest =>
      match send_to ch with
      | some (.ok ()) => flushLoop (acc ++ [d]) rest
      | some (.error m) => some (.error m, false)
      | none => none

/-- What reaches stdout: `main` prints the CSV rows only after the event loop
exits normally; on `bail!` it returns the error and prints nothing. -/
def printedRows : Except String (List RequestResult) → List RequestResult
  | .ok rs => rs
  | .error _ => []

/-- The tail of the run seen from the flush loop: a fatal flush error aborts
`main` with that error, so the collected results are only printed when the
flush (and loop exit) is normal. -/
def clientRun (st : ClientState) (calls : List SendCall) :
    Option (Except String (List RequestResult)) :=
  match flushLoop [] calls with
  | some (.ok _, _) => some (.ok st.results)
  | some (.error m, _) => some (.error m)
  | none => none

/-! ### Helper lemmas -/

theorem requestClose_inflight (cfg : RunConfig) (st : ClientState) :
    (requestClose cfg st).inflight = st.inflight := by
  unfold requestClose; split <;> rfl

theorem requestClose_results (cfg : RunConfig) (st : ClientState) :
    (requestClose cfg st).results = st.results := by
  unfold requestClose; split <;> rfl

theorem requestClose_requests_done (cfg : RunConfig) (st : ClientState) :
    (requestClose cfg st).requests_done = st.requests_done := by
  unfold requestClose; split <;> rfl

theorem requestClose_requests_sent (cfg : RunConfig) (st : ClientState) :
    (requestClose cfg st).requests_sent = st.requests_sent := by
  unfold requestClose; split <;> rfl

theorem requestClose_close_requested (cfg : RunConfig) (st : ClientState) :
    (requestClose cfg st).close_requested =
      (if cfg.total ≤ st.requests_done then true else st.close_requested) := by
  unfold requestClose; split <;> simp [*]

/-- Concrete run configuration used by several concrete instances below. -/
def exCfg : RunConfig := ⟨0, 2⟩

/-- A state with one request inflight on stream `0`. -/
def exStInflight : ClientState := run exCfg initState [.issue 0 0]

/-- C1 counterexample.  The claim says an event with a stream id different
from the inflight one leaves the state unchanged; but on such a Finished
event the code does `inflight.take()` before comparing stream ids, so the
InflightRequest is discarded, and the Reset arm ignores the stream id
entirely and both clears the slot and increments the completed counter. -/
theorem mismatched_events_not_ignored :
    exStInflight.inflight ≠ none
  ∧ (processEvent exCfg 1 exStInflight (.finished 4)).inflight = none
  ∧ (processEvent exCfg 1 exStInflight (.reset 4)).requests_done =
      exStInflight.requests_done + 1 := by decide

/-- C1 (amended).  A Headers or Data event whose stream id differs from the
inflight request's leaves the state unchanged; but a Finished event with a
mismatched stream id clears the InflightRequest (without incrementing the
completed count or emitting a result), and a Reset event clears the
InflightRequest and increments the completed count regardless of its stream
id. -/
theorem mismatched_stream_events (cfg : RunConfig) (now : Nat) (st : ClientState)
    (req : InflightRequest) (sid : Nat) :
    (∀ list, st.inflight = some req → sid ≠ req.stream_id →
        processEvent cfg now st (.headers sid list) = st)
  ∧ (∀ chunks, st.inflight = some req → sid ≠ req.stream_id →
        processEvent cfg now st (.data sid chunks) = st)
  ∧ (st.inflight = some req → sid ≠ req.stream_id →
        processEvent cfg now st (.finished sid) =
          requestClose cfg { st with inflight := none })
  ∧ (processEvent cfg now st (.reset sid) =
        requestClose cfg { st with inflight := none,
                                   requests_done := st.requests_done + 1 }) := by
  refine ⟨?_, ?_, ?_, rfl⟩
  · intro list h hs
    simp [processEvent, h, hs]
  · intro chunks h hs
    simp [processEvent, h, hs]
  · intro h hs
    simp [processEvent, h, hs]

/-- Witness for `mismatched_stream_events` at a concrete state. -/
theorem mismatched_stream_events_witness :
    processEvent exCfg 1 exStInflight (.headers 4 []) = exStInflight ∧
    processEvent exCfg 1 exStInflight (.finished 4) =
      requestClose exCfg { exStInflight with inflight := none } := by
  have h := mismatched_stream_events exCfg 1 exStInflight
    { start := 0, first_byte := none, status := 0, bytes_received := 0, stream_id := 0 } 4
  exact ⟨h.1 [] (by decide) (by decide), h.2.2.1 (by decide) (by decide)⟩

/-- A state with one request inflight on stream `0` whose first-byte
timestamp is already set (to `5`, by a Headers event). -/
def c4St : ClientState := run ⟨0, 1⟩ initState [.issue 0 0, .event 5 (.headers 0 [])]

/-- C4 counterexample.  The claim says a Headers event sets the first-byte
timestamp only if unset; here it is already `some 5` and a later Headers
event at time `9` overwrites it with `some 9`. -/
theorem first_byte_overwritten :
    c4St.inflight.map InflightRequest.first_byte = some (some 5) ∧
    (processEvent ⟨0, 1⟩ 9 c4St (.headers 0 [])).inflight.map InflightRequest.first_byte
      = some (some 9) := by decide

/-- C4 (amended).  Every Headers event for the inflight stream sets the
first-byte timestamp to the current time, overwriting any previously stored
value: the field records the time of the most recent Headers event for the
stream, not the first one. -/
theorem headers_sets_first_byte (cfg : RunConfig) (now : Nat) (st : ClientState)
    (req : InflightRequest) (sid : Nat) (list : List (List Nat × List Nat))
    (h : st.inflight = some req) (hs : sid = req.stream_id) :
    (processEvent cfg now st (.headers sid list)).inflight =
      some { req with first_byte := some now, status := applyHeaders list req.status } := by
  simp [processEvent, h, hs]

/-- Witness for `headers_sets_first_byte` at a concrete state. -/
theorem headers_sets_first_byte_witness :
    (processEvent ⟨0, 1⟩ 9 c4St (.headers 0 [])).inflight =
      some { start := 0, first_byte := some 9, status := 0, bytes_received := 0,
             stream_id := 0 } := by
  have h := headers_sets_first_byte ⟨0, 1⟩ 9 c4St
    { start := 0, first_byte := some 5, status := 0, bytes_received := 0, stream_id := 0 }
    0 [] (by decide) rfl
  exact h

/-- C7.  On a Reset for the inflight stream the pipeline clears the
InflightRequest without emitting a RequestResult, increments the completed
count, and requests connection close exactly when the new completed count
reaches `warmup + requests`; the results list (hence the CSV output) is
untouched. -/
theorem reset_clears_without_row (cfg : RunConfig) (now : Nat) (st : ClientState)
    (req : InflightRequest) (sid : Nat)
    (_h : st.inflight = some req) (_hs : sid = req.stream_id) :
    (processEvent cfg now st (.reset sid)).inflight = none
  ∧ (processEvent cfg now st (.reset sid)).results = st.results
  ∧ (processEvent cfg now st (.reset sid)).requests_done = st.requests_done + 1
  ∧ (processEvent cfg now st (.reset sid)).close_requested =
      (if cfg.total ≤ st.requests_done + 1 then true else st.close_requested) := by
  refine ⟨?_, ?_, ?_, ?_⟩
  · simp [processEvent, requestClose_inflight]
  · simp [processEvent, requestClose_results]
  · simp [processEvent, requestClose_requests_done]
  · simp [processEvent, requestClose_close_requested]

/-- Witness for `reset_clears_without_row` at a concrete state. -/
theorem reset_clears_without_row_witness :
    (processEvent exCfg 1 exStInflight (.reset 0)).inflight = none ∧
    (processEvent exCfg 1 exStInflight (.reset 0)).results = exStInflight.results ∧
    (processEvent exCfg 1 exStInflight (.reset 0)).requests_done =
      exStInflight.requests_done + 1 ∧
    (processEvent exCfg 1 exStInflight (.reset 0)).close_requested =
      (if exCfg.total ≤ exStInflight.requests_done + 1 then true
       else exStInflight.close_requested) :=
  reset_clears_without_row exCfg 1 exStInflight
    { start := 0, first_byte := none, status := 0, bytes_received := 0, stream_id := 0 }
    0 (by decide) rfl

/-- C9.  The `:status` pseudo-header is parsed to an integer, defaulting to
`0` on any parse failure; a freshly issued request carries status `0`
(unset); and processing a Headers event for the inflight stream whose only
header is `:status` stores the parsed-with-default value. -/
theorem status_parse_defaults :
    (∀ bs, parseU16Bytes bs = none → statusFromBytes bs = 0)
  ∧ (∀ bs n, parseU16Bytes bs = some n → statusFromBytes bs = n)
  ∧ (∀ (cfg : RunConfig) (now sid : Nat) (st : ClientState),
        st.inflight = none → st.requests_sent < cfg.total →
          (maybeIssue cfg now sid st).inflight =
            some { start := now, first_byte := none, status := 0,
                   bytes_received := 0, stream_id := sid })
  ∧ (∀ (cfg : RunConfig) (now : Nat) (st : ClientState) (req : InflightRequest)
        (sid : Nat) (v : List Nat),
        st.inflight = some req → sid = req.stream_id →
          (processEvent cfg now st (.headers sid [(statusName, v)])).inflight.map
              InflightRequest.status = some (statusFromBytes v)) := by
  refine ⟨?_, ?_, ?_, ?_⟩
  · intro bs h; simp [statusFromBytes, h]
  · intro bs n h; simp [statusFromBytes, h]
  · intro cfg now sid st h1 h2
    simp [maybeIssue, h1, h2]
  · intro cfg now st req sid v h hs
    simp [processEvent, h, hs, applyHeaders]

/-- Witness for `status_parse_defaults`: the value bytes `"12a"` fail to
parse and default to `0`, both directly and through a Headers event. -/
theorem status_parse_defaults_witness :
    statusFromBytes [49, 50, 97] = 0 ∧
    (maybeIssue exCfg 7 3 initState).inflight =
      some { start := 7, first_byte := none, status := 0, bytes_received := 0,
             stream_id := 3 } ∧
    (processEvent exCfg 1 exStInflight
        (.headers 0 [(statusName, [49, 50, 97])])).inflight.map InflightRequest.status
      = some (statusFromBytes [49, 50, 97]) :=
  ⟨status_parse_defaults.1 [49, 50, 97] (by decide),
   status_parse_defaults.2.2.1 exCfg 7 3 initState rfl (by decide),
   status_parse_defaults.2.2.2 exCfg 1 exStInflight
     { start := 0, first_byte := none, status := 0, bytes_received := 0, stream_id := 0 }
     0 [49, 50, 97] (by decide) rfl⟩

theorem processEvent_requests_sent (cfg : RunConfig) (now : Nat) (st : ClientState)
    (ev : H3Event) : (processEvent cfg now st ev).requests_sent = st.requests_sent := by
  cases ev <;>
    simp only [processEvent, requestClose_requests_sent] <;>
    cases st.inflight <;>
    simp only [requestClose_requests_sent] <;>
    (try split) <;>
    simp [requestClose_requests_sent]

/-- C5.  A step changes the issued-requests counter only through the issue
block, whose guard demands that no request is inflight and that fewer than
`warmup + requests` requests have been issued; and the issue block is a
no-op whenever a request is inflight, so request `k+1` is never issued
before request `k` has resolved. -/
theorem single_inflight_issue_guard :
    (∀ (cfg : RunConfig) (st : ClientState) (a : Action),
        (step cfg st a).requests_sent ≠ st.requests_sent →
          st.inflight = none ∧ st.requests_sent < cfg.total ∧
            (step cfg st a).requests_sent = st.requests_sent + 1)
  ∧ (∀ (cfg : RunConfig) (st : ClientState) (req : InflightRequest) (now sid : Nat),
        st.inflight = some req → step cfg st (.issue now sid) = st) := by
  constructor
  · intro cfg st a h
    cases a with
    | issue now sid =>
        by_cases hg : st.inflight = none ∧ st.requests_sent < cfg.total
        · exact ⟨hg.1, hg.2, by simp [step, maybeIssue, hg]⟩
        · exact absurd (by simp [step, maybeIssue, hg]) h
    | event now ev =>
        exact absurd (processEvent_requests_sent cfg now st ev) h
  · intro cfg st req now sid h
    simp [step, maybeIssue, h]

/-- Witness for `single_inflight_issue_guard`: from the initial state the
issue block does issue a request, and with a request inflight it is a no-op. -/
theorem single_inflight_issue_guard_witness :
    (initState.inflight = none ∧ initState.requests_sent < exCfg.total ∧
      (step exCfg initState (.issue 0 0)).requests_sent = initState.requests_sent + 1) ∧
    step exCfg exStInflight (.issue 1 9) = exStInflight :=
  ⟨single_inflight_issue_guard.1 exCfg initState (.issue 0 0) (by decide),
   single_inflight_issue_guard.2 exCfg exStInflight
     { start := 0, first_byte := none, status := 0, bytes_received := 0, stream_id := 0 }
     1 9 (by decide)⟩

/-- C10.  When the issue guard holds and `send_request` fails, the run aborts
with the contextualised fatal error (no logging-and-continuing); a successful
`send_request` behaves exactly as the infallible issue block; and an aborted
run prints no CSV rows. -/
theorem send_request_error_aborts :
    (∀ (cfg : RunConfig) (now : Nat) (m : String) (st : ClientState),
        st.inflight = none → st.requests_sent < cfg.total →
          issueNext cfg now (.error m) st = .error ("send_request failed: " ++ m))
  ∧ (∀ (cfg : RunConfig) (now sid : Nat) (st : ClientState),
        issueNext cfg now (.ok sid) st = .ok (maybeIssue cfg now sid st))
  ∧ (∀ m : String, printedRows (.error m) = []) := by
  refine ⟨?_, ?_, fun m => rfl⟩
  · intro cfg now m st h1 h2
    simp [issueNext, h1, h2]
  · intro cfg now sid st
    by_cases hg : st.inflight = none ∧ st.requests_sent < cfg.total <;>
      simp [issueNext, maybeIssue, hg]

/-- Witness for `send_request_error_aborts` at a concrete state. -/
theorem send_request_error_aborts_witness :
    issueNext exCfg 0 (.error "connection closed") initState =
      .error ("send_request failed: " ++ "connection closed") ∧
    printedRows (.error ("send_request failed: " ++ "connection closed")) = [] :=
  ⟨send_request_error_aborts.1 exCfg 0 "connection closed" initState rfl (by decide),
   send_request_error_aborts.2.2 ("send_request failed: " ++ "connection closed")⟩

theorem send_to_skips_wouldBlock (n : Nat) (rest : List SendOutcome) :
    send_to (List.replicate n .wouldBlock ++ rest) = send_to rest := by
  induction n with
  | zero => rfl
  | succ k ih => simpa [List.replicate_succ, send_to] using ih

theorem flushLoop_all_accepted (ds : List (List Nat)) :
    ∀ acc, flushLoop acc
        ((ds.map fun d => SendCall.packet d [SendOutcome.accepted]) ++ [SendCall.done])
      = some (.ok (acc ++ ds), false) := by
  induction ds with
  | nil => intro acc; simp [flushLoop]
  | cons d ds ih =>
      intro acc
      simpa [flushLoop, send_to] using ih (acc ++ [d])

/-- C8.  The flush loop transmits every produced packet until the engine
reports nothing pending; `send_to` retries any number of would-block results
until the channel accepts the send or yields a real error; a fatal engine
error makes the flush return that error with the best-effort close attempted;
and a run that ends in a flush error prints no CSV rows. -/
theorem flush_loop_spec :
    (∀ ds : List (List Nat),
        flushLoop []
            ((ds.map fun d => SendCall.packet d [SendOutcome.accepted]) ++ [SendCall.done])
          = some (.ok ds, false))
  ∧ (∀ (n : Nat) (rest : List SendOutcome),
        send_to (List.replicate n .wouldBlock ++ .accepted :: rest) = some (.ok ()))
  ∧ (∀ (n : Nat) (m : String) (rest : List SendOutcome),
        send_to (List.replicate n .wouldBlock ++ .fatal m :: rest) =
          some (.error ("send_to failed: " ++ m)))
  ∧ (∀ (acc : List (List Nat)) (m : String) (rest : List SendCall),
        flushLoop acc (SendCall.fail m :: rest) =
          some (.error ("send failed: " ++ m), true))
  ∧ (∀ (st : ClientState) (calls : List SendCall) (m : String) (b : Bool),
        flushLoop [] calls = some (.error m, b) →
          clientRun st calls = some (.error m) ∧ printedRows (.error m) = []) := by
  refine ⟨?_, ?_, ?_, fun acc m rest => rfl, ?_⟩
  · intro ds
    simpa using flushLoop_all_accepted ds []
  · intro n rest
    rw [send_to_skips_wouldBlock]; rfl
  · intro n m rest
    rw [send_to_skips_wouldBlock]; rfl
  · intro st calls m b h
    refine ⟨?_, rfl⟩
    unfold clientRun
    rw [h]

/-- Witness for `flush_loop_spec`: a flush that hits a fatal engine error
yields that error from the run and no printed rows. -/
theorem flush_loop_spec_witness :
    clientRun initState [SendCall.fail "broken pipe"] =
      some (.error ("send failed: " ++ "broken pipe")) ∧
    printedRows (.error ("send failed: " ++ "broken pipe")) = [] :=
  flush_loop_spec.2.2.2.2 initState [SendCall.fail "broken pipe"]
    ("send failed: " ++ "broken pipe") true rfl

theorem maybeIssue_results (cfg : RunConfig) (now sid : Nat) (st : ClientState) :
    (maybeIssue cfg now sid st).results = st.results := by
  unfold maybeIssue; split <;> rfl

theorem maybeIssue_requests_done (cfg : RunConfig) (now sid : Nat) (st : ClientState) :
    (maybeIssue cfg now sid st).requests_done = st.requests_done := by
  unfold maybeIssue; split <;> rfl

theorem results_length_step (cfg : RunConfig) (st : ClientState) (a : Action) :
    (step cfg st a).results.length =
      st.results.length + (if specEmitsRow cfg st a then 1 else 0) := by
  cases a with
  | issue now sid => simp [step, specEmitsRow, maybeIssue_results]
  | event now ev =>
      cases ev with
      | headers sid list =>
          simp only [step, processEvent, specEmitsRow]
          cases st.inflight <;> simp
          split <;> simp
      | data sid chunks =>
          simp only [step, processEvent, specEmitsRow]
          cases st.inflight <;> simp
          split <;> simp
      | finished sid =>
          obtain ⟨sent, done, results, infl, closeq⟩ := st
          simp only [step, processEvent, specEmitsRow]
          cases infl with
          | none => simp [requestClose_results]
          | some req =>
              by_cases hs : sid = req.stream_id
              · by_cases hw : cfg.warmup ≤ done
                · simp [hs, hw, requestClose_results]
                · simp [hs, hw, requestClose_results]
              · simp [hs, requestClose_results]
      | reset sid => simp [step, processEvent, specEmitsRow, requestClose_results]
      | goAway => simp [step, processEvent, specEmitsRow]
      | priorityUpdate => simp [step, processEvent, specEmitsRow]

theorem results_length_run (cfg : RunConfig) (acts : List Action) :
    ∀ st : ClientState,
      (run cfg st acts).results.length = st.results.length + specRowCount cfg st acts := by
  induction acts with
  | nil => intro st; simp [run, specRowCount]
  | cons a rest ih =>
      intro st
      have hstep : run cfg st (a :: rest) = run cfg (step cfg st a) rest := rfl
      rw [hstep, ih (step cfg st a), results_length_step]
      simp [specRowCount]
      omega

/-- C3.  Over any run the number of collected CSV rows equals the number of
Finished events for the inflight stream processed with completed-count at
least the warmup count; and each such Finished always increments the
completed count, clears the InflightRequest, and appends a RequestResult
exactly when the completed count has reached the warmup count, the appended
row carrying index `completed-count − warmup`. -/
theorem finished_rows (cfg : RunConfig) :
    (∀ (st : ClientState) (acts : List Action),
        (run cfg st acts).results.length = st.results.length + specRowCount cfg st acts)
  ∧ (∀ (now : Nat) (st : ClientState) (req : InflightRequest) (sid : Nat),
        st.inflight = some req → sid = req.stream_id →
          (processEvent cfg now st (.finished sid)).requests_done = st.requests_done + 1
        ∧ (processEvent cfg now st (.finished sid)).inflight = none
        ∧ (cfg.warmup ≤ st.requests_done →
            (processEvent cfg now st (.finished sid)).results =
              st.results ++
                [{ index := st.requests_done - cfg.warmup
                   status := req.status
                   ttfb := (req.first_byte.getD now) - req.start
                   total_time := now - req.start
                   bytes_received := req.bytes_received }])
        ∧ (st.requests_done < cfg.warmup →
            (processEvent cfg now st (.finished sid)).results = st.results)) := by
  refine ⟨fun st acts => results_length_run cfg acts st, ?_⟩
  intro now st req sid h hs
  refine ⟨?_, ?_, ?_, ?_⟩
  · simp [processEvent, h, hs, requestClose_requests_done]
  · simp [processEvent, h, hs, requestClose_inflight]
  · intro hw
    simp [processEvent, h, hs, hw, requestClose_results]
  · intro hw
    simp [processEvent, h, hs, Nat.not_le.mpr hw, requestClose_results]

/-- Concrete trace for the C3 witness: warmup 1, two measured requests, all
three finishing normally. -/
def c3Acts : List Action :=
  [.issue 0 0, .event 1 (.finished 0), .issue 2 4, .event 3 (.finished 4),
   .issue 4 8, .event 5 (.finished 8)]

/-- State of the C3 witness trace just before its second Finished event. -/
def c3St : ClientState := run ⟨1, 2⟩ initState [.issue 0 0, .event 1 (.finished 0), .issue 2 4]

/-- Witness for `finished_rows` on a concrete trace. -/
theorem finished_rows_witness :
    (run ⟨1, 2⟩ initState c3Acts).results.length =
      initState.results.length + specRowCount ⟨1, 2⟩ initState c3Acts ∧
    (processEvent ⟨1, 2⟩ 3 c3St (.finished 4)).requests_done = c3St.requests_done + 1 :=
  ⟨(finished_rows ⟨1, 2⟩).1 initState c3Acts,
   ((finished_rows ⟨1, 2⟩).2 3 c3St
     { start := 2, first_byte := none, status := 0, bytes_received := 0, stream_id := 4 }
     4 (by decide) rfl).1⟩

/-- Trace with warmup 0 and 3 requests where the 2nd request is Reset. -/
def c2Acts : List Action :=
  [.issue 0 0, .event 1 (.finished 0), .issue 2 4, .event 3 (.reset 4),
   .issue 4 8, .event 5 (.finished 8)]

/-- C2 counterexample.  With warmup 0 and 3 requests where the 2nd is Reset,
the two collected rows carry indices 0 and 2 — not the claimed 0 and 1 — so
the reported indices are not the gap-free sequence `0..rows-1`. -/
theorem reset_gap_counterexample :
    (run ⟨0, 3⟩ initState c2Acts).results.map RequestResult.index = [0, 2] ∧
    (run ⟨0, 3⟩ initState c2Acts).results.map RequestResult.index ≠
      List.range (run ⟨0, 3⟩ initState c2Acts).results.length := by decide

/-- Invariant backing the gap-free-indices theorem: the collected indices are
exactly `0..rows-1`, no rows exist before the warmup threshold is crossed,
and past it the completed count is the warmup count plus the row count. -/
def idxInv (cfg : RunConfig) (st : ClientState) : Prop :=
  st.results.map RequestResult.index = List.range st.results.length
  ∧ (st.requests_done < cfg.warmup → st.results = [])
  ∧ (cfg.warmup ≤ st.requests_done →
      st.requests_done = cfg.warmup + st.results.length)

theorem idxInv_of_eq (cfg : RunConfig) (st' : ClientState) (rs : List RequestResult)
    (d : Nat) (h1 : st'.results = rs) (h2 : st'.requests_done = d)
    (hmap : rs.map RequestResult.index = List.range rs.length)
    (hpre : d < cfg.warmup → rs = [])
    (hpost : cfg.warmup ≤ d → d = cfg.warmup + rs.length) : idxInv cfg st' := by
  unfold idxInv
  rw [h1, h2]
  exact ⟨hmap, hpre, hpost⟩

theorem idxInv_step (cfg : RunConfig) (st : ClientState) (a : Action)
    (hres : ∀ now sid, a = .event now (.reset sid) → st.requests_done < cfg.warmup)
    (h : idxInv cfg st) : idxInv cfg (step cfg st a) := by
  obtain ⟨hmap, hpre, hpost⟩ := h
  cases a with
  | issue now sid =>
      exact idxInv_of_eq cfg _ st.results st.requests_done
        (maybeIssue_results cfg now sid st) (maybeIssue_requests_done cfg now sid st)
        hmap hpre hpost
  | event now ev =>
      cases ev with
      | headers sid list =>
          obtain ⟨sent, done, results, infl, closeq⟩ := st
          refine idxInv_of_eq cfg _ results done ?_ ?_ hmap hpre hpost <;>
            (simp only [step, processEvent]
             cases infl <;> simp
             split <;> simp)
      | data sid chunks =>
          obtain ⟨sent, done, results, infl, closeq⟩ := st
          refine idxInv_of_eq cfg _ results done ?_ ?_ hmap hpre hpost <;>
            (simp only [step, processEvent]
             cases infl <;> simp
             split <;> simp)
      | finished sid =>
          obtain ⟨sent, done, results, infl, closeq⟩ := st
          cases infl with
          | none =>
              exact idxInv_of_eq cfg _ results done
                (by simp [step, processEvent, requestClose_results])
                (by simp [step, processEvent, requestClose_requests_done])
                hmap hpre hpost
          | some req =>
              by_cases hs : sid = req.stream_id
              · by_cases hw : cfg.warmup ≤ done
                · have hlen : done = cfg.warmup + results.length := hpost hw
                  refine idxInv_of_eq cfg _
                    (results ++
                      [{ index := done - cfg.warmup
                         status := req.status
                         ttfb := (req.first_byte.getD now) - req.start
                         total_time := now - req.start
                         bytes_received := req.bytes_received }])
                    (done + 1)
                    (by simp [step, processEvent, hs, hw, requestClose_results])
                    (by simp [step, processEvent, hs, hw, requestClose_requests_done])
                    ?_ ?_ ?_
                  · have hidx : done - cfg.warmup = results.length := by omega
                    rw [List.map_append, hmap]
                    simp [hidx, List.range_succ]
                  · intro hlt
                    exact absurd hw (by omega)
                  · intro _
                    simp only [List.length_append, List.length_cons, List.length_nil]
                    omega
                · have hlt : done < cfg.warmup := Nat.not_le.mp hw
                  have hnil : results = [] := hpre hlt
                  refine idxInv_of_eq cfg _ results (done + 1)
                    (by simp [step, processEvent, hs, hw, requestClose_results])
                    (by simp [step, processEvent, hs, hw, requestClose_requests_done])
                    hmap (fun _ => hnil) ?_
                  intro hge
                  rw [hnil]
                  simp only [List.length_nil]
                  omega
              · exact idxInv_of_eq cfg _ results done
                  (by simp [step, processEvent, hs, requestClose_results])
                  (by simp [step, processEvent, hs, requestClose_requests_done])
                  hmap hpre hpost
      | reset sid =>
          have hlt : st.requests_done < cfg.warmup := hres now sid rfl
          have hnil : st.results = [] := hpre hlt
          refine idxInv_of_eq cfg _ st.results (st.requests_done + 1)
            (by simp [step, processEvent, requestClose_results])
            (by simp [step, processEvent, requestClose_requests_done])
            hmap (fun _ => hnil) ?_
          intro hge
          rw [hnil]
          simp only [List.length_nil]
          omega
      | goAway =>
          exact idxInv_of_eq cfg _ st.results st.requests_done rfl rfl hmap hpre hpost
      | priorityUpdate =>
          exact idxInv_of_eq cfg _ st.results st.requests_done rfl rfl hmap hpre hpost

theorem idxInv_run (cfg : RunConfig) (acts : List Action) :
    ∀ st : ClientState, noPostWarmupReset cfg st acts = true → idxInv cfg st →
      idxInv cfg (run cfg st acts) := by
  induction acts with
  | nil => intro st _ h; exact h
  | cons a rest ih =>
      intro st hok h
      unfold noPostWarmupReset at hok
      rw [Bool.and_eq_true] at hok
      have hstep : run cfg st (a :: rest) = run cfg (step cfg st a) rest := rfl
      rw [hstep]
      refine ih (step cfg st a) hok.2 (idxInv_step cfg st a ?_ h)
      intro now sid ha
      subst ha
      exact of_decide_eq_true hok.1

/-- C2 (amended).  The collected row indices are exactly `0..rows-1`, with no
gaps or repeats and in completion order, in every run in which each Reset is
processed while the completed count is still below the warmup count; a Reset
processed at or past the warmup threshold consumes an index, so subsequent
rows skip it (with warmup 0 and 3 requests where the 2nd is Reset, the two
rows carry indices 0 and 2, not 0 and 1). -/
theorem indices_gap_free (cfg : RunConfig) (acts : List Action)
    (h : noPostWarmupReset cfg initState acts = true) :
    (run cfg initState acts).results.map RequestResult.index =
      List.range (run cfg initState acts).results.length := by
  have hinit : idxInv cfg initState := by
    refine ⟨rfl, fun _ => rfl, fun hge => ?_⟩
    have : cfg.warmup = 0 := Nat.le_zero.mp hge
    simp [initState, this]
  exact (idxInv_run cfg acts initState h hinit).1

/-- Trace for the C2 witness: warmup 1 with the warmup request Reset, then
two measured requests finishing normally. -/
def c2wActs : List Action :=
  [.issue 0 0, .event 1 (.reset 0), .issue 2 4, .event 3 (.finished 4),
   .issue 4 8, .event 5 (.finished 8)]

/-- Witness for `indices_gap_free` on a concrete trace whose only Reset is a
warmup one. -/
theorem indices_gap_free_witness :
    noPostWarmupReset ⟨1, 2⟩ initState c2wActs = true ∧
    (run ⟨1, 2⟩ initState c2wActs).results.map RequestResult.index =
      List.range (run ⟨1, 2⟩ initState c2wActs).results.length :=
  ⟨by decide, indices_gap_free ⟨1, 2⟩ c2wActs (by decide)⟩

/-- Every collected row has time-to-first-byte at most the total time. -/
def resultsOk (st : ClientState) : Prop :=
  ∀ r ∈ st.results, r.ttfb ≤ r.total_time

/-- Any first-byte timestamp stored in the inflight slot is at most `w`, the
clock watermark. -/
def inflightOk (w : Nat) (st : ClientState) : Prop :=
  ∀ req, st.inflight = some req → ∀ fb, req.first_byte = some fb → fb ≤ w

theorem clockInv_step (cfg : RunConfig) (st : ClientState) (a : Action) (w : Nat)
    (h1 : resultsOk st) (h2 : inflightOk w st) (hw : w ≤ actTime a) :
    resultsOk (step cfg st a) ∧ inflightOk (actTime a) (step cfg st a) := by
  cases a with
  | issue now sid =>
      by_cases hg : st.inflight = none ∧ st.requests_sent < cfg.total
      · have hstep : step cfg st (.issue now sid) =
            { st with
                inflight := some
                  { start := now, first_byte := none, status := 0,
                    bytes_received := 0, stream_id := sid }
                requests_sent := st.requests_sent + 1 } := by
          simp [step, maybeIssue, hg]
        rw [hstep]
        refine ⟨h1, ?_⟩
        intro req hreq fb hfb
        have hr := Option.some_inj.mp hreq
        rw [← hr] at hfb
        simp at hfb
      · have hstep : step cfg st (.issue now sid) = st := by
          simp [step, maybeIssue, hg]
        rw [hstep]
        exact ⟨h1, fun req hreq fb hfb => le_trans (h2 req hreq fb hfb) hw⟩
  | event now ev =>
      cases ev with
      | headers sid list =>
          obtain ⟨sent, done, results, infl, closeq⟩ := st
          cases infl with
          | none =>
              have hstep : step cfg ⟨sent, done, results, none, closeq⟩
                  (.event now (.headers sid list)) = ⟨sent, done, results, none, closeq⟩ := by
                simp [step, processEvent]
              rw [hstep]
              exact ⟨h1, fun req hreq fb hfb => le_trans (h2 req hreq fb hfb) hw⟩
          | some req =>
              by_cases hs : sid = req.stream_id
              · have hstep : step cfg ⟨sent, done, results, some req, closeq⟩
                    (.event now (.headers sid list)) =
                      ⟨sent, done, results,
                        some { req with first_byte := some now
                                        status := applyHeaders list req.status }, closeq⟩ := by
                  simp [step, processEvent, hs]
                rw [hstep]
                refine ⟨h1, ?_⟩
                intro req2 hreq fb hfb
                have hr := Option.some_inj.mp hreq
                rw [← hr] at hfb
                simp at hfb
                simp only [actTime]
                omega
              · have hstep : step cfg ⟨sent, done, results, some req, closeq⟩
                    (.event now (.headers sid list)) =
                      ⟨sent, done, results, some req, closeq⟩ := by
                  simp [step, processEvent, hs]
                rw [hstep]
                exact ⟨h1, fun req2 hreq fb hfb => le_trans (h2 req2 hreq fb hfb) hw⟩
      | data sid chunks =>
          obtain ⟨sent, done, results, infl, closeq⟩ := st
          cases infl with
          | none =>
              have hstep : step cfg ⟨sent, done, results, none, closeq⟩
                  (.event now (.data sid chunks)) = ⟨sent, done, results, none, closeq⟩ := by
                simp [step, processEvent]
              rw [hstep]
              exact ⟨h1, fun req hreq fb hfb => le_trans (h2 req hreq fb hfb) hw⟩
          | some req =>
              by_cases hs : sid = req.stream_id
              · have hstep : step cfg ⟨sent, done, results, some req, closeq⟩
                    (.event now (.data sid chunks)) =
                      ⟨sent, done, results,
                        some { req with
                          bytes_received := req.bytes_received + chunks.foldl (· + ·) 0 },
                        closeq⟩ := by
                  simp [step, processEvent, hs]
                rw [hstep]
                refine ⟨h1, ?_⟩
                intro req2 hreq fb hfb
                have hr := Option.some_inj.mp hreq
                rw [← hr] at hfb
                simp at hfb
                exact le_trans (h2 req rfl fb hfb) hw
              · have hstep : step cfg ⟨sent, done, results, some req, closeq⟩
                    (.event now (.data sid chunks)) =
                      ⟨sent, done, results, some req, closeq⟩ := by
                  simp [step, processEvent, hs]
                rw [hstep]
                exact ⟨h1, fun req2 hreq fb hfb => le_trans (h2 req2 hreq fb hfb) hw⟩
      | finished sid =>
          obtain ⟨sent, done, results, infl, closeq⟩ := st
          have hind : (step cfg ⟨sent, done, results, infl, closeq⟩
              (.event now (.finished sid))).inflight = none ∨
              (step cfg ⟨sent, done, results, infl, closeq⟩
                (.event now (.finished sid))).inflight = infl := by
            cases infl with
            | none => right; simp [step, processEvent, requestClose_inflight]
            | some req =>
                left
                by_cases hs : sid = req.stream_id <;>
                  simp [step, processEvent, hs, requestClose_inflight]
          refine ⟨?_, ?_⟩
          · intro r hr
            cases infl with
            | none =>
                rw [show (step cfg ⟨sent, done, results, none, closeq⟩
                    (.event now (.finished sid))).results = results from by
                  simp [step, processEvent, requestClose_results]] at hr
                exact h1 r hr
            | some req =>
                by_cases hs : sid = req.stream_id
                · by_cases hwu : cfg.warmup ≤ done
                  · rw [show (step cfg ⟨sent, done, results, some req, closeq⟩
                        (.event now (.finished sid))).results =
                          results ++
                            [{ index := done - cfg.warmup
                               status := req.status
                               ttfb := (req.first_byte.getD now) - req.start
                               total_time := now - req.start
                               bytes_received := req.bytes_received }] from by
                      simp [step, processEvent, hs, hwu, requestClose_results]] at hr
                    rcases List.mem_append.mp hr with hin | hin
                    · exact h1 r hin
                    · have hrr := List.mem_singleton.mp hin
                      subst hrr
                      cases hfb : req.first_byte with
                      | none => simp [hfb]
                      | some fb =>
                          have hle : fb ≤ now := le_trans (h2 req rfl fb hfb) hw
                          simp only [hfb, Option.getD_some]
                          exact Nat.sub_le_sub_right hle req.start
                  · rw [show (step cfg ⟨sent, done, results, some req, closeq⟩
                        (.event now (.finished sid))).results = results from by
                      simp [step, processEvent, hs, hwu, requestClose_results]] at hr
                    exact h1 r hr
                · rw [show (step cfg ⟨sent, done, results, some req, closeq⟩
                      (.event now (.finished sid))).results = results from by
                    simp [step, processEvent, hs, requestClose_results]] at hr
                  exact h1 r hr
          · intro req2 hreq fb hfb
            rcases hind with hnone | hsame
            · rw [hnone] at hreq
              exact absurd hreq (by simp)
            · rw [hsame] at hreq
              exact le_trans (h2 req2 hreq fb hfb) hw
      | reset sid =>
          refine ⟨?_, ?_⟩
          · intro r hr
            rw [show (step cfg st (.event now (.reset sid))).results = st.results from by
              simp [step, processEvent, requestClose_results]] at hr
            exact h1 r hr
          · intro req2 hreq fb hfb
            rw [show (step cfg st (.event now (.reset sid))).inflight = none from by
              simp [step, processEvent, requestClose_inflight]] at hreq
            exact absurd hreq (by simp)
      | goAway =>
          exact ⟨h1, fun req hreq fb hfb => le_trans (h2 req hreq fb hfb) hw⟩
      | priorityUpdate =>
          exact ⟨h1, fun req hreq fb hfb => le_trans (h2 req hreq fb hfb) hw⟩

theorem clockInv_run (cfg : RunConfig) (acts : List Action) :
    ∀ (st : ClientState) (w : Nat), chronoFrom w acts = true →
      resultsOk st → inflightOk w st → resultsOk (run cfg st acts) := by
  induction acts with
  | nil => intro st w _ h1 _; exact h1
  | cons a rest ih =>
      intro st w hc h1 h2
      unfold chronoFrom at hc
      rw [Bool.and_eq_true] at hc
      have hw : w ≤ actTime a := of_decide_eq_true hc.1
      have hstep := clockInv_step cfg st a w h1 h2 hw
      exact ih (step cfg st a) (actTime a) hc.2 hstep.1 hstep.2

/-- C6.  In any run driven by a monotone clock, every collected row satisfies
`ttfb ≤ total_time`; and when a request finishes with no first-byte event
ever observed, the emitted row's ttfb defaults to the completion time, so
`ttfb = total_time` for that row. -/
theorem ttfb_le_total (cfg : RunConfig) :
    (∀ acts : List Action, chronoFrom 0 acts = true →
        ∀ r ∈ (run cfg initState acts).results, r.ttfb ≤ r.total_time)
  ∧ (∀ (now : Nat) (st : ClientState) (req : InflightRequest) (sid : Nat),
        st.inflight = some req → sid = req.stream_id → req.first_byte = none →
        cfg.warmup ≤ st.requests_done →
          (processEvent cfg now st (.finished sid)).results =
            st.results ++
              [{ index := st.requests_done - cfg.warmup
                 status := req.status
                 ttfb := now - req.start
                 total_time := now - req.start
                 bytes_received := req.bytes_received }]) := by
  constructor
  · intro acts hc
    exact clockInv_run cfg acts initState 0 hc
      (fun r hr => absurd hr (by simp [initState]))
      (fun req hreq => absurd hreq (by simp [initState]))
  · intro now st req sid h hs hfb hwu
    simp [processEvent, h, hs, hfb, hwu, requestClose_results]

/-- Chronological trace for the C6 witness: one measured request issued at
time 0, headers with status 200 at time 3, finished at time 7. -/
def c6Acts : List Action :=
  [.issue 0 0, .event 3 (.headers 0 [(statusName, [50, 48, 48])]),
   .event 7 (.finished 0)]

/-- Witness for `ttfb_le_total`: the single row of the `c6Acts` run has
`ttfb = 3 ≤ 7 = total_time`. -/
theorem ttfb_le_total_witness :
    chronoFrom 0 c6Acts = true ∧
    ({ index := 0, status := 200, ttfb := 3, total_time := 7, bytes_received := 0 } :
        RequestResult) ∈ (run ⟨0, 1⟩ initState c6Acts).results ∧
    (3 : Nat) ≤ 7 :=
  ⟨by decide, by decide,
   (ttfb_le_total ⟨0, 1⟩).1 c6Acts (by decide)
     { index := 0, status := 200, ttfb := 3, total_time := 7, bytes_received := 0 }
     (by decide)⟩

end QlogBench
